import Mathlib

/-!
Verification of the zarafe annotation-event store.

This file shallowly embeds `src/zarafe/core/event_manager.py` (class
`EventManager`) together with the pieces of `src/zarafe/core/config.py`
(`ProjectConfig.is_marker_interval_event`) and
`src/zarafe/core/video_manager.py` (`calculate_duration`) that the
specification's claims refer to, and proves or refutes those claims.

Embedding conventions:
* Python dict events `{"name", "start", "end"}` become the structure
  `Event`; the `end` field is called `stop` because `end` is a Lean
  keyword.  Frame numbers are Python ints, embedded as `Int`.
* Methods mutating `self` become functions `EventManager → ... →
  EventManager × Bool × String` returning the new state together with the
  `(success, message)` pair the Python method returns.
* `mark_start` / `mark_end` index `self.events[self.selected_event]`
  without a range check; an out-of-range index raises `IndexError` in
  Python, which the embedding models as the `none` result of an
  `Option`-returning function.  `selected_event` is `Option Nat`: every
  assignment to it in the source is `None` or a non-negative in-range int.
* `self.event_history` (Python: `append` at the end, undo `pop()` from the
  end, capacity `pop(0)` from the front) is embedded with the most recent
  snapshot FIRST: push is `::`, undo pops the head, and the capacity
  eviction drops the last element.  Python's `event.copy()` deep-copy of
  each row is value semantics in Lean, hence implicit.
* CSV files are embedded after the `csv` module has split them: a header
  (list of field names) plus rows (one list of cell strings per row, one
  cell per header column).  `csv.DictReader`'s `row.get(key, default)`
  becomes a positional lookup of `key` in the header.  Python `int(s)`
  is modelled by `String.toInt?`, whose `none` result stands for the
  `ValueError` Python raises on a non-numeric literal (the two agree on
  the plain decimal literals these files contain).
* `save_to_csv` performs its file write at the very end of the method;
  the embedding returns `none` in place of the written file whenever the
  method returns before reaching the write, and `some file` (header row
  plus data rows) when it writes.
* The `MetadataManager` collaborator is embedded at its boundary: the
  `is_complete()` result and the `get_field` mapping that `save_to_csv`
  consults.
-/

namespace Zarafe

/-- One annotation event: the Python dict `{"name": ..., "start": ..., "end": ...}`.
The sentinel `-1` means "unset".  The `end` field is named `stop` (Lean keyword). -/
structure Event where
  name : String
  start : Int
  stop : Int
deriving DecidableEq

/-- One entry of the `event_types` list of `zarafe_config.json`:
`{name, applies_to?}` (the color field plays no role in the claims). -/
structure EventTypeDef where
  name : String
  applies_to : Option String
deriving DecidableEq

/-- The slice of `ProjectConfig` (src/zarafe/core/config.py) that
`EventManager` consults: the raw `event_types` list. -/
structure ProjectConfig where
  event_types : List EventTypeDef
deriving DecidableEq

/-- Python substring containment `needle in hay` on the underlying character
lists: some suffix of `hay` starts with `needle`. -/
def charsContain (needle : List Char) : List Char → Bool
  | [] => needle.isEmpty
  | c :: rest => needle.isPrefixOf (c :: rest) || charsContain needle rest

/-- Python `needle in hay` for strings. -/
def strIn (needle hay : String) : Bool :=
  charsContain needle.data hay.data

/-- `ProjectConfig.is_marker_interval_event` (config.py lines 80-85): true iff
some configured event type has `applies_to == "glassesValidator"` and its name
occurs as a substring of `event_name`. -/
def ProjectConfig.is_marker_interval_event (c : ProjectConfig) (event_name : String) : Bool :=
  c.event_types.any fun t => t.applies_to == some "glassesValidator" && strIn t.name event_name

/-- The state of `EventManager`: the live event list, the selected index and
the undo history (most recent snapshot first, see the embedding notes). -/
structure EventManager where
  events : List Event
  selected_event : Option Nat
  event_history : List (List Event)
deriving DecidableEq

/-- A freshly constructed `EventManager` (`__init__`): no events, no
selection, empty history. -/
def EventManager.init : EventManager :=
  { events := [], selected_event := none, event_history := [] }

/-- `save_state` (lines 103-109): push a copy of the event list; if the
history now exceeds 20 entries, evict the oldest (Python `pop(0)`; with the
most-recent-first embedding that is the LAST element). -/
def EventManager.save_state (m : EventManager) : EventManager :=
  let h := m.events :: m.event_history
  { m with event_history := if h.length > 20 then h.dropLast else h }

/-- `create_event` (lines 21-34): on a duplicate name the selection moves to
the existing event and the call fails; otherwise a snapshot is pushed and a
fresh event with both bounds unset is appended and selected. -/
def EventManager.create_event (m : EventManager) (event_type : String) :
    EventManager × Bool × String :=
  match m.events.findIdx? (fun e => e.name == event_type) with
  | some i =>
      ({ m with selected_event := some i }, false,
        s!"{event_type} already exists. Please complete or delete it first.")
  | none =>
      let m1 := m.save_state
      let events1 := m1.events ++ [{ name := event_type, start := -1, stop := -1 }]
      ({ m1 with events := events1, selected_event := some (events1.length - 1) },
        true, s!"Created {event_type}")

/-- `mark_start` (lines 36-47).  The `none` result models the `IndexError`
Python raises when `selected_event` is out of range for `events`. -/
def EventManager.mark_start (m : EventManager) (frame : Int) :
    Option (EventManager × Bool × String) :=
  match m.selected_event with
  | none => some (m, false, "Please create or select an event first.")
  | some i =>
      match m.events[i]? with
      | none => none
      | some event =>
          if event.stop != -1 && frame > event.stop then
            some (m, false, "Start frame cannot be after end frame.")
          else
            let m1 := m.save_state
            some ({ m1 with events := m1.events.set i { event with start := frame } },
              true, s!"Marked start at frame {frame}")

/-- `mark_end` (lines 49-60), symmetric to `mark_start`. -/
def EventManager.mark_end (m : EventManager) (frame : Int) :
    Option (EventManager × Bool × String) :=
  match m.selected_event with
  | none => some (m, false, "Please create or select an event first.")
  | some i =>
      match m.events[i]? with
      | none => none
      | some event =>
          if event.start != -1 && frame < event.start then
            some (m, false, "End frame cannot be before start frame.")
          else
            let m1 := m.save_state
            some ({ m1 with events := m1.events.set i { event with stop := frame } },
              true, s!"Marked end at frame {frame}")

/-- `delete_selected_event` (lines 62-80).  The Python range check
`0 <= self.selected_event < len(self.events)` is exactly `m.events[i]? ≠ none`
for the `Option Nat` selection.  After the `pop`, the selection is cleared if
the list became empty, clamped to the new last index if it fell off the end,
and kept otherwise. -/
def EventManager.delete_selected_event (m : EventManager) :
    EventManager × Bool × String :=
  match m.selected_event with
  | none => (m, false, "Please select an event to delete.")
  | some i =>
      match m.events[i]? with
      | none => (m, false, "Invalid event selection.")
      | some deleted =>
          let m1 := m.save_state
          let events1 := m1.events.eraseIdx i
          let sel : Option Nat :=
            if events1.isEmpty then none
            else if i ≥ events1.length then some (events1.length - 1)
            else some i
          let n := deleted.name
          ({ m1 with events := events1, selected_event := sel }, true, s!"Deleted {n}")

/-- `undo` (lines 111-124): fail on empty history, otherwise pop the most
recent snapshot into the live list; the previously selected index survives
exactly when it is still in range for the restored list. -/
def EventManager.undo (m : EventManager) : EventManager × Bool × String :=
  match m.event_history with
  | [] => (m, false, "No actions to undo")
  | prev :: rest =>
      let sel : Option Nat :=
        match m.selected_event with
        | some i => if i < prev.length then some i else none
        | none => none
      ({ events := prev, selected_event := sel, event_history := rest },
        true, "Undid last action")

/-- One mutating call of the claims' operation vocabulary. -/
inductive Op where
  | create (event_type : String)
  | markStart (frame : Int)
  | markEnd (frame : Int)
  | delete

/-- Apply one operation, exposing the `(state, success, message)` result;
`none` models an uncaught Python exception. -/
def applyOp (m : EventManager) : Op → Option (EventManager × Bool × String)
  | .create t => some (m.create_event t)
  | .markStart f => m.mark_start f
  | .markEnd f => m.mark_end f
  | .delete => some m.delete_selected_event

/-- States reachable from a fresh `EventManager` by any sequence of
`create_event` / `mark_start` / `mark_end` / `delete_selected_event` calls
(successful or failed, as long as no exception is raised). -/
inductive Reachable : EventManager → Prop
  | init : Reachable EventManager.init
  | step {m m' : EventManager} {op : Op} {ok : Bool} {msg : String} :
      Reachable m → applyOp m op = some (m', ok, msg) → Reachable m'

/-- `csv.DictReader` cell lookup: the value of column `key` in `row`, or
`none` when the header has no such column (the embedding keeps each row
aligned with the header, one cell per column). -/
def rowGet (header row : List String) (key : String) : Option String :=
  match header.indexOf? key with
  | some j => row[j]?
  | none => none

/-- All-decimal-digit check and value of a character list ([] rejected). -/
def decDigits? (l : List Char) : Option Nat :=
  if l.isEmpty then none
  else if l.all (fun c => 48 ≤ c.toNat && c.toNat ≤ 57) then
    some (l.foldl (fun acc c => 10 * acc + (c.toNat - 48)) 0)
  else none

/-- Python `int(s)` on the optionally-signed decimal literals these CSV
files contain; `none` stands for the `ValueError` raised on anything else
(Python additionally tolerates surrounding whitespace, a leading `+` and
digit-group underscores, which these files do not use). -/
def pyInt (s : String) : Option Int :=
  match s.data with
  | '-' :: rest => (decDigits? rest).map (fun n => -(n : Int))
  | l => (decDigits? l).map (fun n => (n : Int))

/-- The frame-cell conversion of `load_from_csv` (lines 222-223):
`int(cell) if cell not in ["-1", "N.A."] else -1`. -/
def parseFrameCell (s : String) : Option Int :=
  if s == "-1" || s == "N.A." then some (-1) else pyInt s

/-- Outcome of the per-row format dispatch of `load_from_csv`. -/
inductive RowName where
  | skip
  | named (event_name : String)
deriving DecidableEq

/-- The header-dispatch of `load_from_csv` (lines 192-215): the unified
`event_name` format, the old `monitor_id`/`event_type` format (rebuilding
`Approach <id>` / `View <id>` names), and "unknown format — skip the row".
Rows whose type is `N.A.`/empty, or whose reconstructed category is neither
`approach` nor `view`, are skipped. -/
def classifyRow (header row : List String) : RowName :=
  if header.contains "event_name" then
    match rowGet header row "event_name" with
    | some n => if n == "" then .skip else .named n
    | none => .skip
  else if header.contains "monitor_id" && header.contains "event_type" then
    let event_type := (rowGet header row "event_type").getD ""
    let monitor_id := (rowGet header row "monitor_id").getD ""
    if event_type == "N.A." || event_type == "" || monitor_id == "" then .skip
    else if event_type == "approach" then .named ("Approach " ++ monitor_id)
    else if event_type == "view" then .named ("View " ++ monitor_id)
    else .skip
  else .skip

/-- The fixed prefix of the `f"Error loading events: {e}"` message (the
embedding does not reproduce Python's exception text). -/
def loadErrorMsg : String :=
  "Error loading events: invalid int literal"

/-- The row loop of `load_from_csv` (lines 192-230).  A row that fails the
`int()` conversion raises, and the enclosing handler returns
`(False, message)` with the events accumulated SO FAR still in the list (the
source has no roll-back on this path).  When the loop completes, the
selection moves to index 0 iff at least one event was loaded. -/
def loadRows (header : List String) : EventManager → List (List String) →
    EventManager × Bool × String
  | m, [] =>
      let m1 := if m.events.isEmpty then m else { m with selected_event := some 0 }
      let k := m1.events.length
      (m1, true, s!"Loaded {k} events")
  | m, row :: rest =>
      match classifyRow header row with
      | .skip => loadRows header m rest
      | .named event_name =>
          match parseFrameCell ((rowGet header row "start_frame").getD "N.A.") with
          | none => (m, false, loadErrorMsg)
          | some s =>
              match parseFrameCell ((rowGet header row "end_frame").getD "N.A.") with
              | none => (m, false, loadErrorMsg)
              | some e =>
                  loadRows header
                    { m with events := m.events ++ [{ name := event_name, start := s, stop := e }] }
                    rest

/-- `load_from_csv` (lines 183-233): clear the live list first
(`self.events.clear()`), then run the row loop.  Selection and history are
untouched except for the final "select index 0 when something was loaded"
step inside the loop. -/
def EventManager.load_from_csv (m : EventManager) (header : List String)
    (rows : List (List String)) : EventManager × Bool × String :=
  loadRows header { m with events := [] } rows

/-- The marker cell conversion of `load_marker_intervals` (lines 273-274):
`int(row.get(key, 0))` — a missing column falls back to the integer `0`, a
present cell goes through `int()`. -/
def parseMarkerCell (header row : List String) (key : String) : Option Int :=
  match rowGet header row key with
  | some v => pyInt v
  | none => some 0

/-- The row loop of `load_marker_intervals` (lines 272-281): append an event
named `"<marker type> <i+1>"` per row; a failing `int()` raises and the
handler swallows the exception, keeping the rows appended so far. -/
def markerLoop (marker_event_name : String) (header : List String) :
    EventManager → Nat → List (List String) → EventManager
  | m, _, [] => m
  | m, i, row :: rest =>
      match parseMarkerCell header row "start_frame" with
      | none => m
      | some s =>
          match parseMarkerCell header row "end_frame" with
          | none => m
          | some e =>
              let j := i + 1
              markerLoop marker_event_name header
                { m with events := m.events ++
                    [{ name := s!"{marker_event_name} {j}", start := s, stop := e }] }
                (i + 1) rest

/-- `load_marker_intervals` (lines 256-284): find the first configured event
type with `applies_to == "glassesValidator"`; without one, return unchanged;
with one, append one suffixed event per TSV row.  Neither the selection nor
the history is touched. -/
def EventManager.load_marker_intervals (m : EventManager) (c : ProjectConfig)
    (header : List String) (rows : List (List String)) : EventManager :=
  match c.event_types.find? (fun t => t.applies_to == some "glassesValidator") with
  | none => m
  | some t => markerLoop t.name header m 0 rows

/-- The `MetadataManager` collaborator at the boundary `save_to_csv` uses:
the `is_complete()` verdict and the `get_field` mapping. -/
structure MetadataManager where
  complete : Bool
  fields : List (String × String)

/-- `MetadataManager.get_field`: `self.metadata.get(field, "")`. -/
def MetadataManager.get_field (mm : MetadataManager) (f : String) : String :=
  (mm.fields.lookup f).getD ""

/-- `_calculate_duration_seconds` (event_manager.py lines 292-296): the source
returns `None` unconditionally — its own comment calls the body a placeholder
pending access to the FPS. -/
def calculate_duration_seconds (_event : Event) (_mm : MetadataManager) : Option Rat :=
  none

/-- `VideoManager.calculate_duration` (src/zarafe/core/video_manager.py lines
96-100): `None` when a bound is unset or `fps == 0`, else
`round((end - start + 1) / fps, 1)`.  Python floats are embedded as `Rat`
and `round(x, 1)` as `round (10 * x) / 10` (the two agree away from exact
ties, which the claims' inputs avoid). -/
def calculate_duration (fps : Rat) (start_frame end_frame : Int) : Option Rat :=
  if start_frame == -1 || end_frame == -1 || fps == 0 then none
  else some ((round (10 * (((end_frame : Rat) - (start_frame : Rat) + 1) / fps)) : Int) / 10)

/-- One entry of `rows_to_write` in `save_to_csv` (lines 154-162), before
serialization; an `N.A.` cell is `none`. -/
structure SaveRow where
  participant_id : String
  file_name : String
  event_name : String
  startCell : Option Int
  endCell : Option Int
  durationStr : String
deriving DecidableEq

/-- The `f"Event '{...}' is missing start or end time."` message. -/
def missingMsg (n : String) : String :=
  s!"Event \x27{n}\x27 is missing start or end time."

/-- The row-building loop of `save_to_csv` (lines 144-162): skip
marker-interval events, abort at the first remaining event with an unset
bound, otherwise emit one row (duration via the placeholder
`_calculate_duration_seconds`, hence always the string `N.A.`). -/
def buildRows (c : ProjectConfig) (mm : MetadataManager) : List Event →
    Except String (List SaveRow)
  | [] => .ok []
  | e :: rest =>
      if c.is_marker_interval_event e.name then buildRows c mm rest
      else if e.start == -1 || e.stop == -1 then .error (missingMsg e.name)
      else
        let duration_str :=
          match calculate_duration_seconds e mm with
          | some d => toString d
          | none => "N.A."
        let row : SaveRow :=
          { participant_id := mm.get_field "participant_id"
            file_name := mm.get_field "file_name"
            event_name := e.name
            startCell := if e.start != -1 then some e.start else none
            endCell := if e.stop != -1 then some e.stop else none
            durationStr := duration_str }
        (buildRows c mm rest).map (fun rs => row :: rs)

/-- The sort comparator of line 164: ascending by start cell, with `N.A.`
start cells (`float("inf")` in the source) ordered last; `List.mergeSort`
matches the stability of Python's `list.sort`. -/
def rowLE (a b : SaveRow) : Bool :=
  match a.startCell, b.startCell with
  | some x, some y => x ≤ y
  | some _, none => true
  | none, some _ => false
  | none, none => true

/-- Serialize one `SaveRow` the way `csv.writer` receives it. -/
def SaveRow.toCells (r : SaveRow) : List String :=
  [r.participant_id, r.file_name, r.event_name,
    (r.startCell.map toString).getD "N.A.",
    (r.endCell.map toString).getD "N.A.",
    r.durationStr]

/-- The header row written at lines 168-175. -/
def csvHeader : List String :=
  ["participant_id", "file_name", "event_name", "start_frame", "end_frame", "duration"]

/-- `save_to_csv` (lines 135-181): metadata gate, row building (aborting at
the first incomplete non-marker event), sort, then the file write.  The
second component is the written file — `none` on the paths that return
before any I/O.  The store itself is never mutated, so no new
`EventManager` is returned. -/
def EventManager.save_to_csv (m : EventManager) (c : ProjectConfig)
    (mm : MetadataManager) : (Bool × String) × Option (List (List String)) :=
  if !mm.complete then
    ((false, "Please fill in all metadata fields before saving."), none)
  else
    match buildRows c mm m.events with
    | .error msg => ((false, msg), none)
    | .ok rows =>
        let sorted := rows.mergeSort rowLE
        ((true, "Events saved"), some (csvHeader :: sorted.map SaveRow.toCells))

/-- The cross-field ordering property of an event: a bound is unset, or the
bounds are ordered. -/
def Event.intervalOk (e : Event) : Prop :=
  e.start = -1 ∨ e.stop = -1 ∨ e.start ≤ e.stop

/-- The abort condition of the `save_to_csv` row loop: a non-marker-interval
event with an unset bound. -/
def incompleteNonMarker (c : ProjectConfig) (e : Event) : Bool :=
  !(c.is_marker_interval_event e.name) && (e.start == -1 || e.stop == -1)

/-! ### Helper lemmas -/

@[simp]
theorem EventManager.save_state_events (m : EventManager) :
    m.save_state.events = m.events :=
  rfl

@[simp]
theorem EventManager.save_state_selected (m : EventManager) :
    m.save_state.selected_event = m.selected_event :=
  rfl

theorem EventManager.save_state_history (m : EventManager) :
    ∃ t, m.save_state.event_history = m.events :: t := by
  have hdef : m.save_state.event_history =
      if (m.events :: m.event_history).length > 20
      then (m.events :: m.event_history).dropLast
      else m.events :: m.event_history := rfl
  rw [hdef]
  by_cases h : (m.events :: m.event_history).length > 20
  · rw [if_pos h]
    cases hh : m.event_history with
    | nil => rw [hh] at h; simp at h
    | cons b l => exact ⟨(b :: l).dropLast, by rw [List.dropLast_cons₂]⟩
  · rw [if_neg h]
    exact ⟨m.event_history, rfl⟩

theorem EventManager.undo_of_history {m : EventManager} {prev : List Event}
    {t : List (List Event)} (h : m.event_history = prev :: t) :
    m.undo.1.events = prev ∧ m.undo.2.1 = true := by
  simp [EventManager.undo, h]

theorem EventManager.undo_none_selected {m : EventManager} {prev : List Event}
    {t : List (List Event)} (h : m.event_history = prev :: t)
    (hsel : m.selected_event = none) :
    m.undo.1.selected_event = none := by
  simp [EventManager.undo, h, hsel]

/-- `create_event` either leaves the list alone (duplicate) or appends a fresh
event with both bounds unset. -/
theorem EventManager.create_event_events (m : EventManager) (t : String) :
    (m.create_event t).1.events = m.events ∨
      (m.create_event t).1.events = m.events ++ [{ name := t, start := -1, stop := -1 }] := by
  unfold EventManager.create_event
  cases hf : m.events.findIdx? (fun e => e.name == t) with
  | none => simp
  | some i => simp

/-- `mark_start` either leaves the list alone or overwrites `start` of the
selected event with a frame that respects the guard. -/
theorem EventManager.mark_start_events {m : EventManager} {f : Int}
    {r : EventManager × Bool × String} (h : m.mark_start f = some r) :
    r.1.events = m.events ∨
      ∃ i event, m.events[i]? = some event ∧ (event.stop = -1 ∨ f ≤ event.stop) ∧
        r.1.events = m.events.set i { event with start := f } := by
  unfold EventManager.mark_start at h
  split at h
  · left
    simp only [Option.some.injEq] at h
    rw [← h]
  · rename_i i hsel
    split at h
    · exact absurd h (by simp)
    · rename_i event hg
      split at h
      · left
        simp only [Option.some.injEq] at h
        rw [← h]
      · rename_i hc
        right
        simp only [Option.some.injEq] at h
        refine ⟨i, event, hg, ?_, by rw [← h]; simp⟩
        simp only [Bool.and_eq_true, bne_iff_ne, ne_eq, decide_eq_true_eq, not_and, not_lt] at hc
        by_cases hstop : event.stop = -1
        · exact Or.inl hstop
        · exact Or.inr (hc hstop)

/-- `mark_end`, symmetric to `mark_start`. -/
theorem EventManager.mark_end_events {m : EventManager} {f : Int}
    {r : EventManager × Bool × String} (h : m.mark_end f = some r) :
    r.1.events = m.events ∨
      ∃ i event, m.events[i]? = some event ∧ (event.start = -1 ∨ event.start ≤ f) ∧
        r.1.events = m.events.set i { event with stop := f } := by
  unfold EventManager.mark_end at h
  split at h
  · left
    simp only [Option.some.injEq] at h
    rw [← h]
  · rename_i i hsel
    split at h
    · exact absurd h (by simp)
    · rename_i event hg
      split at h
      · left
        simp only [Option.some.injEq] at h
        rw [← h]
      · rename_i hc
        right
        simp only [Option.some.injEq] at h
        refine ⟨i, event, hg, ?_, by rw [← h]; simp⟩
        simp only [Bool.and_eq_true, bne_iff_ne, ne_eq, decide_eq_true_eq, not_and, not_lt] at hc
        by_cases hstart : event.start = -1
        · exact Or.inl hstart
        · exact Or.inr (hc hstart)

/-- `delete_selected_event` either leaves the list alone or removes one
index. -/
theorem EventManager.delete_selected_event_events (m : EventManager) :
    m.delete_selected_event.1.events = m.events ∨
      ∃ i, m.delete_selected_event.1.events = m.events.eraseIdx i := by
  unfold EventManager.delete_selected_event
  split
  · left; rfl
  · rename_i i hsel
    split
    · left; rfl
    · rename_i deleted hg
      right; exact ⟨i, by simp⟩

/-- Any single `applyOp` step preserves the per-event interval ordering
property. -/
theorem applyOp_intervalOk {m m' : EventManager} {op : Op} {ok : Bool} {msg : String}
    (h : applyOp m op = some (m', ok, msg))
    (inv : ∀ e ∈ m.events, e.intervalOk) :
    ∀ e ∈ m'.events, e.intervalOk := by
  cases op with
  | create t =>
      have hm : (m.create_event t).1 = m' := by
        simp only [applyOp, Option.some.injEq] at h
        rw [h]
      rcases EventManager.create_event_events m t with he | he <;> rw [hm] at he
      · rw [he]; exact inv
      · rw [he]
        intro e hmem
        rcases List.mem_append.mp hmem with h1 | h1
        · exact inv e h1
        · rcases List.mem_singleton.mp h1 with rfl
          exact Or.inl rfl
  | markStart f =>
      have h' : m.mark_start f = some (m', ok, msg) := h
      rcases EventManager.mark_start_events h' with he | ⟨i, event, hg, hguard, he⟩
      · rw [he]; exact inv
      · rw [he]
        intro e hmem
        rcases List.mem_or_eq_of_mem_set hmem with h1 | rfl
        · exact inv e h1
        · rcases hguard with hstop | hle
          · exact Or.inr (Or.inl hstop)
          · exact Or.inr (Or.inr hle)
  | markEnd f =>
      have h' : m.mark_end f = some (m', ok, msg) := h
      rcases EventManager.mark_end_events h' with he | ⟨i, event, hg, hguard, he⟩
      · rw [he]; exact inv
      · rw [he]
        intro e hmem
        rcases List.mem_or_eq_of_mem_set hmem with h1 | rfl
        · exact inv e h1
        · rcases hguard with hstart | hle
          · exact Or.inl hstart
          · exact Or.inr (Or.inr hle)
  | delete =>
      have hm : m.delete_selected_event.1 = m' := by
        simp only [applyOp, Option.some.injEq] at h
        rw [h]
      rcases EventManager.delete_selected_event_events m with he | ⟨i, he⟩ <;> rw [hm] at he
      · rw [he]; exact inv
      · rw [he]
        intro e hmem
        exact inv e (List.eraseIdx_subset _ _ hmem)

/-! ### The claims -/

/-- C1: for every sequence of `create_event`, `mark_start`, `mark_end` and
`delete_selected_event` operations applied to an initially empty
`EventManager`, every event in the store at every point satisfies
`start == -1 or end == -1 or start <= end`. -/
theorem c1_interval_invariant {m : EventManager} (h : Reachable m) :
    ∀ e ∈ m.events, e.start = -1 ∨ e.stop = -1 ∨ e.start ≤ e.stop := by
  induction h with
  | init => intro e hmem; simp [EventManager.init] at hmem
  | step _ hstep ih => exact applyOp_intervalOk hstep ih

/-- C1 witness: the state after `create_event "A"; mark_start 5` is reachable
and its single event satisfies the interval property. -/
theorem c1_interval_invariant_witness :
    ({ name := "A", start := 5, stop := -1 } : Event).start = -1 ∨
      ({ name := "A", start := 5, stop := -1 } : Event).stop = -1 ∨
      ({ name := "A", start := 5, stop := -1 } : Event).start ≤
        ({ name := "A", start := 5, stop := -1 } : Event).stop := by
  have h1 : applyOp EventManager.init (Op.create "A") =
      some (⟨[{ name := "A", start := -1, stop := -1 }], some 0, [[]]⟩, true, "Created A") := by
    decide
  have h2 : applyOp (⟨[{ name := "A", start := -1, stop := -1 }], some 0, [[]]⟩ : EventManager)
      (Op.markStart 5) =
      some (⟨[{ name := "A", start := 5, stop := -1 }], some 0,
        [[{ name := "A", start := -1, stop := -1 }], []]⟩, true, "Marked start at frame 5") := by
    decide
  exact c1_interval_invariant
    (Reachable.step (Reachable.step Reachable.init h1) h2)
    { name := "A", start := 5, stop := -1 } (by simp)

/-- Every successful mutating call leaves the snapshot of the pre-call event
list as the most recent history entry. -/
theorem applyOp_success_history {m m' : EventManager} {op : Op} {msg : String}
    (h : applyOp m op = some (m', true, msg)) :
    ∃ t, m'.event_history = m.events :: t := by
  cases op with
  | create t =>
      simp only [applyOp, Option.some.injEq] at h
      unfold EventManager.create_event at h
      split at h
      · simp at h
      · simp only [Prod.mk.injEq] at h
        rw [← h.1]
        exact m.save_state_history
  | markStart f =>
      have h' : m.mark_start f = some (m', true, msg) := h
      unfold EventManager.mark_start at h'
      split at h'
      · simp at h'
      · rename_i i hsel
        split at h'
        · exact absurd h' (by simp)
        · rename_i event hg
          split at h'
          · simp at h'
          · simp only [Option.some.injEq, Prod.mk.injEq] at h'
            rw [← h'.1]
            exact m.save_state_history
  | markEnd f =>
      have h' : m.mark_end f = some (m', true, msg) := h
      unfold EventManager.mark_end at h'
      split at h'
      · simp at h'
      · rename_i i hsel
        split at h'
        · exact absurd h' (by simp)
        · rename_i event hg
          split at h'
          · simp at h'
          · simp only [Option.some.injEq, Prod.mk.injEq] at h'
            rw [← h'.1]
            exact m.save_state_history
  | delete =>
      simp only [applyOp, Option.some.injEq] at h
      unfold EventManager.delete_selected_event at h
      split at h
      · simp at h
      · rename_i i hsel
        split at h
        · simp at h
        · rename_i deleted hg
          simp only [Prod.mk.injEq] at h
          rw [← h.1]
          exact m.save_state_history

/-- C2: a successful mutating call followed by `undo` restores the event list
to exactly the value it had before the call, and `undo` on an empty history
returns failure without changing either the event list or the selection. -/
theorem c2_undo_restores (m : EventManager) :
    (∀ (op : Op) (m' : EventManager) (msg : String),
        applyOp m op = some (m', true, msg) →
        m'.undo.1.events = m.events ∧ m'.undo.2.1 = true) ∧
    (m.event_history = [] → m.undo = (m, false, "No actions to undo")) := by
  constructor
  · intro op m' msg h
    obtain ⟨t, ht⟩ := applyOp_success_history h
    exact EventManager.undo_of_history ht
  · intro h
    unfold EventManager.undo
    rw [h]

/-- C2 witness: `create_event "A"` on a fresh store then `undo` restores the
empty list, and `undo` on the fresh store itself fails and changes nothing. -/
theorem c2_undo_restores_witness :
    ((⟨[{ name := "A", start := -1, stop := -1 }], some 0, [[]]⟩ : EventManager).undo.1.events =
        EventManager.init.events ∧
      (⟨[{ name := "A", start := -1, stop := -1 }], some 0, [[]]⟩ : EventManager).undo.2.1 = true) ∧
    EventManager.init.undo = (EventManager.init, false, "No actions to undo") :=
  ⟨(c2_undo_restores EventManager.init).1 (Op.create "A")
      ⟨[{ name := "A", start := -1, stop := -1 }], some 0, [[]]⟩ "Created A" (by decide),
    (c2_undo_restores EventManager.init).2 rfl⟩

/-- The `save_to_csv` row loop aborts with the message naming the first
non-marker event with an unset bound. -/
theorem buildRows_error_of_find {c : ProjectConfig} {mm : MetadataManager} :
    ∀ {l : List Event} {e₀ : Event},
      l.find? (incompleteNonMarker c) = some e₀ →
      buildRows c mm l = Except.error (missingMsg e₀.name) := by
  intro l
  induction l with
  | nil => intro e₀ h; simp at h
  | cons e rest ih =>
      intro e₀ h
      by_cases hm : c.is_marker_interval_event e.name = true
      · have hp : incompleteNonMarker c e = false := by
          simp [incompleteNonMarker, hm]
        rw [List.find?_cons_of_neg _ (by simp [hp])] at h
        simp only [buildRows, hm, if_true]
        exact ih h
      · have hmf : c.is_marker_interval_event e.name = false := by
          simpa using hm
        by_cases hi : (e.start == -1 || e.stop == -1) = true
        · have hp : incompleteNonMarker c e = true := by
            simp only [incompleteNonMarker, hmf, Bool.not_false, Bool.true_and]
            exact hi
          rw [List.find?_cons_of_pos _ hp] at h
          simp only [Option.some.injEq] at h
          subst h
          simp [buildRows, hmf, hi]
        · have hif : (e.start == -1 || e.stop == -1) = false := by simpa using hi
          have hp : incompleteNonMarker c e = false := by
            simp [incompleteNonMarker, hmf, hif]
          rw [List.find?_cons_of_neg _ (by simp [hp])] at h
          have herr := ih h
          simp [buildRows, hmf, hif, herr, Except.map]

/-- C3: `save_to_csv` returns failure and writes nothing whenever some
non-marker-interval event has an unset bound; when the metadata gate passes,
the failure message names the first such event (the write in the source is
reached only after the whole loop succeeds, so no partial file is
produced). -/
theorem c3_save_aborts_on_incomplete (m : EventManager) (c : ProjectConfig)
    (mm : MetadataManager)
    (h : ∃ e ∈ m.events, c.is_marker_interval_event e.name = false ∧
        (e.start = -1 ∨ e.stop = -1)) :
    (m.save_to_csv c mm).1.1 = false ∧ (m.save_to_csv c mm).2 = none ∧
      (mm.complete = true →
        ∀ e₀, m.events.find? (incompleteNonMarker c) = some e₀ →
          (m.save_to_csv c mm).1.2 = missingMsg e₀.name) := by
  by_cases hc : mm.complete = true
  · have hex : ∃ x ∈ m.events, incompleteNonMarker c x := by
      obtain ⟨e, hmem, hmf, hse⟩ := h
      refine ⟨e, hmem, ?_⟩
      simp only [incompleteNonMarker, hmf, Bool.not_false, Bool.true_and]
      rcases hse with h1 | h1 <;> simp [h1]
    obtain ⟨e₀, he₀⟩ := Option.isSome_iff_exists.mp (List.find?_isSome.mpr hex)
    have herr := @buildRows_error_of_find c mm m.events e₀ he₀
    unfold EventManager.save_to_csv
    simp only [hc, Bool.not_true, Bool.false_eq_true, if_false, herr]
    refine ⟨trivial, trivial, fun _ e₁ he₁ => ?_⟩
    have : e₁ = e₀ := by
      rw [he₀] at he₁
      exact (Option.some.injEq _ _ ▸ he₁).symm
    rw [this]
  · have hcf : mm.complete = false := by simpa using hc
    unfold EventManager.save_to_csv
    simp only [hcf, Bool.not_false, if_true]
    exact ⟨trivial, trivial, fun hcc => absurd hcc (by simp [hcf])⟩

/-- C3 witness: a store whose only event has an unset start aborts the save
with the message naming that event, and no file content is produced. -/
theorem c3_save_aborts_on_incomplete_witness :
    ((⟨[{ name := "A", start := -1, stop := 5 }], none, []⟩ : EventManager).save_to_csv
        ⟨[]⟩ ⟨true, []⟩).1.1 = false ∧
    ((⟨[{ name := "A", start := -1, stop := 5 }], none, []⟩ : EventManager).save_to_csv
        ⟨[]⟩ ⟨true, []⟩).2 = none ∧
    ((⟨[{ name := "A", start := -1, stop := 5 }], none, []⟩ : EventManager).save_to_csv
        ⟨[]⟩ ⟨true, []⟩).1.2 = missingMsg "A" := by
  have h := c3_save_aborts_on_incomplete ⟨[{ name := "A", start := -1, stop := 5 }], none, []⟩
    ⟨[]⟩ ⟨true, []⟩
    ⟨{ name := "A", start := -1, stop := 5 }, by simp, by decide, Or.inl rfl⟩
  exact ⟨h.1, h.2.1, h.2.2 rfl { name := "A", start := -1, stop := 5 } (by decide)⟩

/-- C4 counterexample: on a file whose second row fails the `int()`
conversion, `load_from_csv` returns failure but leaves the first row's event
in the list — the load is NOT rolled back to an empty list. -/
theorem c4_counterexample :
    (EventManager.init.load_from_csv ["event_name", "start_frame", "end_frame"]
        [["E1", "1", "2"], ["E2", "x", "3"]]).2.1 = false ∧
    (EventManager.init.load_from_csv ["event_name", "start_frame", "end_frame"]
        [["E1", "1", "2"], ["E2", "x", "3"]]).1.events =
      [{ name := "E1", start := 1, stop := 2 }] := by
  decide

/-- C4 amended: a row-level parse failure makes `load_from_csv` return
failure with an error message; the clear at the start of the load removes
every pre-existing event, but the events accumulated from rows before the
failing one are retained (the loop hands back its accumulator unchanged —
there is no roll-back on the error path). -/
theorem c4_amended (m acc : EventManager) (header row : List String)
    (rest : List (List String)) (n : String)
    (hclass : classifyRow header row = RowName.named n)
    (hfail : parseFrameCell ((rowGet header row "start_frame").getD "N.A.") = none ∨
      ∃ s, parseFrameCell ((rowGet header row "start_frame").getD "N.A.") = some s ∧
        parseFrameCell ((rowGet header row "end_frame").getD "N.A.") = none) :
    loadRows header acc (row :: rest) = (acc, false, loadErrorMsg) ∧
    (m.load_from_csv header (row :: rest)).1.events = [] := by
  have key : ∀ a : EventManager, loadRows header a (row :: rest) = (a, false, loadErrorMsg) := by
    intro a
    rcases hfail with h1 | ⟨s, hs, h2⟩
    · simp [loadRows, hclass, h1]
    · simp [loadRows, hclass, hs, h2]
  refine ⟨key acc, ?_⟩
  unfold EventManager.load_from_csv
  rw [key]

/-- C4 witness: the loop returns a non-empty accumulator unchanged on the
failing row, and a load whose first row fails clears the pre-existing
events. -/
theorem c4_amended_witness :
    loadRows ["event_name", "start_frame", "end_frame"]
        ⟨[{ name := "E1", start := 1, stop := 2 }], none, []⟩ [["E2", "x", "3"]] =
      (⟨[{ name := "E1", start := 1, stop := 2 }], none, []⟩, false, loadErrorMsg) ∧
    ((⟨[{ name := "Old", start := 0, stop := 0 }], none, []⟩ : EventManager).load_from_csv
        ["event_name", "start_frame", "end_frame"] [["E2", "x", "3"]]).1.events = [] :=
  c4_amended ⟨[{ name := "Old", start := 0, stop := 0 }], none, []⟩
    ⟨[{ name := "E1", start := 1, stop := 2 }], none, []⟩
    ["event_name", "start_frame", "end_frame"] ["E2", "x", "3"] [] "E2"
    (by decide) (Or.inl (by decide))

/-- C5: with a complete event `{A, 10, 20}` and fps 30, `save_to_csv` writes
`N.A.` in the duration column (because `_calculate_duration_seconds` is an
unconditional-`None` placeholder), while the duration formula the source
keeps in `VideoManager.calculate_duration` — the one the claim describes —
yields `0.4` on the same input. -/
theorem c5_duration_placeholder :
    ((⟨[{ name := "A", start := 10, stop := 20 }], none, []⟩ : EventManager).save_to_csv ⟨[]⟩
        ⟨true, [("participant_id", "p1"), ("file_name", "f1")]⟩).2 =
      some [csvHeader, ["p1", "f1", "A", "10", "20", "N.A."]] ∧
    calculate_duration 30 10 20 = some (2 / 5) := by
  constructor
  · have hsave : ((⟨[{ name := "A", start := 10, stop := 20 }], none, []⟩ :
        EventManager).save_to_csv ⟨[]⟩
          ⟨true, [("participant_id", "p1"), ("file_name", "f1")]⟩) =
        ((true, "Events saved"),
          some (csvHeader ::
            (([⟨"p1", "f1", "A", some 10, some 20, "N.A."⟩] : List SaveRow).mergeSort
              rowLE).map SaveRow.toCells)) := rfl
    rw [hsave, List.mergeSort_singleton]
    decide
  · unfold calculate_duration
    rw [if_neg (by decide :
      ¬(((10 : Int) == -1 || (20 : Int) == -1 || (30 : Rat) == 0) = true))]
    norm_num [round_eq]

/-- C6 counterexample: loading the legacy header `Event,Start Frame,End
Frame` with the row `Event 1,10,20` yields an EMPTY event list (the row is
skipped as unknown format), not the single event the claim describes. -/
theorem c6_counterexample :
    (EventManager.init.load_from_csv ["Event", "Start Frame", "End Frame"]
        [["Event 1", "10", "20"]]).1.events = [] ∧
    (EventManager.init.load_from_csv ["Event", "Start Frame", "End Frame"]
        [["Event 1", "10", "20"]]).2.1 = true := by
  decide

/-- C6 amended: on that legacy file the load reports success with zero
events — `load_from_csv` recognizes only headers containing `event_name`,
or `monitor_id` together with `event_type`; the simple-numbered legacy
layout is not among them, so every row is skipped. -/
theorem c6_amended :
    EventManager.init.load_from_csv ["Event", "Start Frame", "End Frame"]
        [["Event 1", "10", "20"]] =
      (EventManager.init, true, "Loaded 0 events") := by
  decide

/-- C7 counterexample: with `Accuracy Test` configured as a repeatable
marker-interval type and an event of exactly that name present,
`create_event` still fails with the conflict message and moves the selection
— no suffixed repeat is created. -/
theorem c7_counterexample :
    (ProjectConfig.mk [⟨"Accuracy Test", some "glassesValidator"⟩]).is_marker_interval_event
        "Accuracy Test" = true ∧
    (⟨[{ name := "Accuracy Test", start := 1, stop := 5 }], none, []⟩ : EventManager).create_event
        "Accuracy Test" =
      (⟨[{ name := "Accuracy Test", start := 1, stop := 5 }], some 0, []⟩, false,
        "Accuracy Test already exists. Please complete or delete it first.") := by
  decide

/-- C7 amended: `create_event t` applies the duplicate check uniformly by
exact name, with no marker-interval exception: whenever an event named `t`
exists the call fails with the conflict message, selects the first such
event, and performs no mutation and no history push; when no event named `t`
exists the call succeeds.  (Ordinal suffixes come only from
`load_marker_intervals`, never from `create_event`.) -/
theorem c7_amended (m : EventManager) (t : String) :
    (∀ i, m.events.findIdx? (fun e => e.name == t) = some i →
      m.create_event t = ({ m with selected_event := some i }, false,
        s!"{t} already exists. Please complete or delete it first.")) ∧
    (m.events.findIdx? (fun e => e.name == t) = none → (m.create_event t).2.1 = true) := by
  constructor
  · intro i h
    unfold EventManager.create_event
    rw [h]
  · intro h
    unfold EventManager.create_event
    rw [h]

/-- C7 witness: the conflict branch on a concrete duplicate and the success
branch on a fresh store. -/
theorem c7_amended_witness :
    (⟨[{ name := "Accuracy Test", start := 1, stop := 5 }], none, []⟩ : EventManager).create_event
        "Accuracy Test" =
      (⟨[{ name := "Accuracy Test", start := 1, stop := 5 }], some 0, []⟩, false,
        "Accuracy Test already exists. Please complete or delete it first.") ∧
    (EventManager.init.create_event "B").2.1 = true :=
  ⟨(c7_amended ⟨[{ name := "Accuracy Test", start := 1, stop := 5 }], none, []⟩
      "Accuracy Test").1 0 (by decide),
    (c7_amended EventManager.init "B").2 (by decide)⟩

/-- C8: a state reached through the public API on which `mark_start` raises
instead of returning `(False, message)`: `create_event "A"` leaves the
selection at 0; a subsequent `load_from_csv` of an unknown-format file
succeeds with zero events but keeps the stale selection; `mark_start` then
indexes the empty list at 0 — the `none` result is the modelled
`IndexError`. -/
theorem c8_stale_selection_indexerror :
    (((EventManager.init.create_event "A").1.load_from_csv ["foo"] [["x"]]).2.1 = true ∧
      ((EventManager.init.create_event "A").1.load_from_csv ["foo"] [["x"]]).1.selected_event =
        some 0 ∧
      ((EventManager.init.create_event "A").1.load_from_csv ["foo"] [["x"]]).1.events = []) ∧
    (((EventManager.init.create_event "A").1.load_from_csv ["foo"] [["x"]]).1.mark_start 5 =
      none) := by
  decide

/-- C9 counterexample: deleting the only event and undoing restores the
event but leaves the selection `none` — not index 0 as the claim states
(`undo` consults the selection held at undo time, which the deletion
cleared). -/
theorem c9_counterexample :
    (EventManager.delete_selected_event
        ⟨[{ name := "A", start := -1, stop := -1 }], some 0, []⟩).1.undo.1.events =
      [{ name := "A", start := -1, stop := -1 }] ∧
    (EventManager.delete_selected_event
        ⟨[{ name := "A", start := -1, stop := -1 }], some 0, []⟩).1.undo.1.selected_event =
      none := by
  decide

/-- C9 amended: from a store holding exactly one event with the selection on
it, `delete_selected_event` empties the list and clears the selection; a
subsequent `undo` restores the single event but leaves the selection `none`
(undo preserves the selection held at undo time, which the deletion set to
none). -/
theorem c9_amended (ev : Event) (hist : List (List Event)) :
    ((EventManager.delete_selected_event ⟨[ev], some 0, hist⟩).1.events = [] ∧
      (EventManager.delete_selected_event ⟨[ev], some 0, hist⟩).1.selected_event = none ∧
      (EventManager.delete_selected_event ⟨[ev], some 0, hist⟩).2.1 = true) ∧
    ((EventManager.delete_selected_event ⟨[ev], some 0, hist⟩).1.undo.1.events = [ev] ∧
      (EventManager.delete_selected_event ⟨[ev], some 0, hist⟩).1.undo.1.selected_event = none ∧
      (EventManager.delete_selected_event ⟨[ev], some 0, hist⟩).1.undo.2.1 = true) := by
  obtain ⟨t, ht⟩ := EventManager.save_state_history (⟨[ev], some 0, hist⟩ : EventManager)
  have hD : (EventManager.delete_selected_event ⟨[ev], some 0, hist⟩).1 =
      EventManager.mk [] none
        (EventManager.save_state ⟨[ev], some 0, hist⟩).event_history := rfl
  have hDh : (EventManager.delete_selected_event ⟨[ev], some 0, hist⟩).1.event_history =
      [ev] :: t := by
    rw [hD]; exact ht
  have hDsel : (EventManager.delete_selected_event ⟨[ev], some 0, hist⟩).1.selected_event =
      none := by
    rw [hD]
  have hundo := EventManager.undo_of_history hDh
  exact ⟨⟨by rw [hD], hDsel, rfl⟩,
    hundo.1, EventManager.undo_none_selected hDh hDsel, hundo.2⟩

/-- C9 witness: the amended behavior at a concrete one-event store. -/
theorem c9_amended_witness :
    ((EventManager.delete_selected_event
        ⟨[{ name := "A", start := -1, stop := -1 }], some 0, []⟩).1.events = [] ∧
      (EventManager.delete_selected_event
        ⟨[{ name := "A", start := -1, stop := -1 }], some 0, []⟩).1.selected_event = none ∧
      (EventManager.delete_selected_event
        ⟨[{ name := "A", start := -1, stop := -1 }], some 0, []⟩).2.1 = true) ∧
    ((EventManager.delete_selected_event
        ⟨[{ name := "A", start := -1, stop := -1 }], some 0, []⟩).1.undo.1.events =
        [{ name := "A", start := -1, stop := -1 }] ∧
      (EventManager.delete_selected_event
        ⟨[{ name := "A", start := -1, stop := -1 }], some 0, []⟩).1.undo.1.selected_event =
        none ∧
      (EventManager.delete_selected_event
        ⟨[{ name := "A", start := -1, stop := -1 }], some 0, []⟩).1.undo.2.1 = true) :=
  c9_amended { name := "A", start := -1, stop := -1 } []

/-- C10: both loaders append events without an ordering check — a CSV row
and a TSV row with start 20 and end 10 each produce a stored event with both
bounds set and `start > end` — while the same state rejects a `mark_start`
that violates the ordering, so the invariant is enforced only at the
mark boundary. -/
theorem c10_load_skips_ordering_check :
    (EventManager.init.load_from_csv ["event_name", "start_frame", "end_frame"]
        [["E", "20", "10"]]).1.events = [{ name := "E", start := 20, stop := 10 }] ∧
    (EventManager.init.load_marker_intervals ⟨[⟨"Accuracy Test", some "glassesValidator"⟩]⟩
        ["start_frame", "end_frame"] [["20", "10"]]).events =
      [{ name := "Accuracy Test 1", start := 20, stop := 10 }] ∧
    ((20 : Int) ≠ -1 ∧ (10 : Int) ≠ -1 ∧ (20 : Int) > 10) ∧
    ((EventManager.init.load_from_csv ["event_name", "start_frame", "end_frame"]
        [["E", "20", "10"]]).1.mark_start 30 =
      some ((EventManager.init.load_from_csv ["event_name", "start_frame", "end_frame"]
        [["E", "20", "10"]]).1, false, "Start frame cannot be after end frame.")) := by
  decide

end Zarafe
